import Mathlib

/-!
Verification of `base/setup/lib/filesup.c` (ReactOS Setup Library file
support functions) against its natural-language specification.

Wide strings (`PCWSTR`) are modelled as `List Char`: the list holds the
characters before the NUL terminator, so `wcslen` is `List.length` and
reading `*p` at the end of the string yields the terminator, modelled by
pattern-matching on the empty list.  NTSTATUS values are modelled as the
signed 32-bit integers the code uses, with `NT_SUCCESS s ↔ 0 ≤ s`.
-/

/-- The path separator `OBJ_NAME_PATH_SEPARATOR` (L'\\'). -/
def OBJ_NAME_PATH_SEPARATOR : Char := '\\'

/-- NTSTATUS constants used by the code. -/
def STATUS_SUCCESS : Int := 0

def STATUS_BUFFER_OVERFLOW : Int := -2147483643

def STATUS_INVALID_PARAMETER : Int := -1073741811

/-- NT_SUCCESS macro: a status is a success iff it is non-negative as a
signed 32-bit integer. -/
def NT_SUCCESS (s : Int) : Bool := 0 ≤ s

/-- ASCII-range `towlower`, as used by `_wcsnicmp` on the literals involved
here (all pure ASCII). -/
def towlower (c : Char) : Char :=
  if 'A' ≤ c ∧ c ≤ 'Z' then Char.ofNat (c.toNat + 32) else c

/-- Model of `_wcsnicmp(s, lit, lit.length) == 0` where `lit` is a
NUL-free literal of exactly `lit.length` characters: the first
`lit.length` characters of `s` must exist (otherwise the comparison hits
the terminator of `s` and mismatches, since `lit` has no NUL there) and
must equal `lit` up to case. -/
def ciMatch (lit s : List Char) : Bool :=
  ((s.take lit.length).map towlower) == (lit.map towlower)

/-- Reading `iswdigit(*p)`: at the end of the string `*p` is the NUL
terminator, which is not a digit. -/
def headIsDigit : List Char → Bool
  | [] => false
  | c :: _ => c.isDigit

/-- Decimal value of a digit run (most significant first). -/
def digitsToNat (ds : List Char) : Nat :=
  ds.foldl (fun a c => a * 10 + (c.toNat - 48)) 0

/-- Model of `wcstoul(p, &p, 10)` at a position already known to start
with a decimal digit: consume the maximal digit run; the returned ULONG
saturates at `ULONG_MAX` on overflow. -/
def wcstoulVal (s : List Char) : Nat :=
  min (digitsToNat (s.takeWhile Char.isDigit)) (2 ^ 32 - 1)

/-- The tail left by `wcstoul`: everything after the maximal digit run. -/
def wcstoulRest (s : List Char) : List Char :=
  s.dropWhile Char.isDigit

/-- The literal `L"\\Device\\Harddisk"` (16 characters). -/
def hdDevLit : List Char := '\\' :: 'D' :: 'e' :: 'v' :: 'i' :: 'c' :: 'e' ::
  '\\' :: 'H' :: 'a' :: 'r' :: 'd' :: 'd' :: 'i' :: 's' :: 'k' :: []

/-- The literal `L"\\Partition"` (10 characters). -/
def partLit : List Char := '\\' :: 'P' :: 'a' :: 'r' :: 't' :: 'i' :: 't' ::
  'i' :: 'o' :: 'n' :: []

/-- Result of `NtPathToDiskPartComponents`: the returned BOOLEAN, the two
output numbers `*pDiskNumber` / `*pPartNumber`, and `*PathComponent`
(`none` models the NULL pointer it is initialised to). -/
structure ParseResult where
  success : Bool
  disk : Nat
  part : Nat
  rem : Option (List Char)
deriving Repr, DecidableEq

/-- Shallow embedding of `NtPathToDiskPartComponents` (filesup.c lines
141–226), with `PathComponent` requested.  Each branch mirrors a branch of
the C function; the `Quit` label corresponds to the `⟨true, …⟩` results,
which all carry the disk number and the current tail. -/
def NtPathToDiskPartComponents (NtPath : List Char) : ParseResult :=
  -- *pDiskNumber = 0; *pPartNumber = 0; *PathComponent = NULL;
  if ¬ ciMatch hdDevLit NtPath then
    -- not a possible hard disk device
    ⟨false, 0, 0, none⟩
  else
    -- Path += 16
    let path1 := NtPath.drop 16
    if ¬ headIsDigit path1 then
      -- expected a number
      ⟨false, 0, 0, none⟩
    else
      let DiskNumber := wcstoulVal path1
      let path2 := wcstoulRest path1
      match path2 with
      | c :: _ =>
        if c ≠ OBJ_NAME_PATH_SEPARATOR then
          -- expected a path separator
          ⟨false, 0, 0, none⟩
        else if ¬ ciMatch partLit path2 then
          -- "\Partition" is optional: lenient success
          ⟨true, DiskNumber, 0, some path2⟩
        else
          -- Path += 10
          let path3 := path2.drop 10
          if ¬ headIsDigit path3 then
            -- no partition number: lenient success
            ⟨true, DiskNumber, 0, some path3⟩
          else
            let PartNumber := wcstoulVal path3
            let path4 := wcstoulRest path3
            match path4 with
            | c2 :: _ =>
              if c2 ≠ OBJ_NAME_PATH_SEPARATOR then
                -- invalid char after the partition number: lenient success,
                -- *pPartNumber is left at 0
                ⟨true, DiskNumber, 0, some path4⟩
              else
                ⟨true, DiskNumber, PartNumber, some path4⟩
            | [] => ⟨true, DiskNumber, PartNumber, some []⟩
      | [] =>
        -- the path only specified a hard disk
        ⟨true, DiskNumber, 0, some []⟩

/-- Model of `RtlStringCchCatW(dest, cap, src)` (ntstrsafe).  `cap` counts
characters including the terminator.  If `cap` is zero or `dest` carries no
terminator within `cap` characters the call fails with
`STATUS_INVALID_PARAMETER` and leaves `dest` alone; if the concatenation
fits (content plus terminator within `cap`) it succeeds; otherwise it
copies as much of `src` as fits, terminates, and returns
`STATUS_BUFFER_OVERFLOW`. -/
def RtlStringCchCatW (dest : List Char) (cap : Nat) (src : List Char) :
    Int × List Char :=
  if cap = 0 ∨ cap < dest.length + 1 then (STATUS_INVALID_PARAMETER, dest)
  else if dest.length + src.length + 1 ≤ cap then (STATUS_SUCCESS, dest ++ src)
  else (STATUS_BUFFER_OVERFLOW, dest ++ src.take (cap - 1 - dest.length))

/-- Shallow embedding of `ConcatPaths` (filesup.c lines 16–47).  The
buffer `PathElem1` is passed by value and the (status, final buffer
content) pair is returned.  `PathElem2 = none` models the NULL pointer.
Reading `PathElem1[cchPathLen-1]` is modelled with `List.getD`; the NUL
default is never reached when `cchPathLen > 0`. -/
def ConcatPaths (PathElem1 : List Char) (cchPathSize : Nat)
    (PathElem2 : Option (List Char)) : Int × List Char :=
  match PathElem2 with
  | none => (STATUS_SUCCESS, PathElem1)
  | some p2 =>
    if cchPathSize ≤ 1 then (STATUS_SUCCESS, PathElem1)
    else
      let cchPathLen := min cchPathSize PathElem1.length
      let lastCh := PathElem1.getD (cchPathLen - 1) (Char.ofNat 0)
      -- PathElem2[0]: the terminator when p2 is empty
      let p2head := p2.getD 0 (Char.ofNat 0)
      if p2head ≠ '\\' ∧ 0 < cchPathLen ∧ lastCh ≠ '\\' then
        -- append exactly one separator first
        match RtlStringCchCatW PathElem1 cchPathSize ['\\'] with
        | (st, d) =>
          if ¬ NT_SUCCESS st then (st, d)
          else RtlStringCchCatW d cchPathSize p2
      else if p2head = '\\' ∧ 0 < cchPathLen ∧ lastCh = '\\' then
        -- skip any leading backslash of PathElem2
        RtlStringCchCatW PathElem1 cchPathSize (p2.dropWhile (· = '\\'))
      else
        RtlStringCchCatW PathElem1 cchPathSize p2

/-- Structural check of the third failure branch (filesup.c line 175):
after the disk-number digit run, the next character (when the string has
not ended) must be the path separator. -/
def afterDiskBad (s : List Char) : Bool :=
  match wcstoulRest (s.drop 16) with
  | [] => false
  | c :: _ => c ≠ OBJ_NAME_PATH_SEPARATOR

/-- Windows share-access flags passed to `NtOpenFile`. -/
def FILE_SHARE_READ : Nat := 1

def FILE_SHARE_WRITE : Nat := 2

/-- Resource events performed by the mapped-file operations, in program
order.  An acquisition event records the share-access flags the file was
opened with; a release event models the corresponding `NtClose` /
`NtUnmapViewOfSection` call the code performs. -/
inductive Act where
  | acqFile (shareAccess : Nat)
  | relFile
  | acqSection
  | relSection
  | acqView
  | relView
deriving Repr, DecidableEq

/-- Which resources are held after a sequence of events. -/
structure ResState where
  file : Bool
  sect : Bool
  view : Bool
deriving Repr, DecidableEq

def applyAct (r : ResState) : Act → ResState
  | .acqFile _ => { r with file := true }
  | .relFile => { r with file := false }
  | .acqSection => { r with sect := true }
  | .relSection => { r with sect := false }
  | .acqView => { r with view := true }
  | .relView => { r with view := false }

def heldAfter (t : List Act) : ResState :=
  t.foldl applyAct ⟨false, false, false⟩

/-- Outcomes of the kernel collaborators consumed by `OpenAndMapFile`:
the NTSTATUS each call would return, and the 64-bit `EndOfFile` byte
count reported by `NtQueryInformationFile`. -/
structure MapEnv where
  openStatus : Int
  queryStatus : Int
  endOfFile : Nat
  sectionStatus : Int
  mapStatus : Int
deriving Repr, DecidableEq

/-- Result of `OpenAndMapFile`: the returned NTSTATUS, whether the two
out-handles are non-NULL on return, the `*FileSize` output (when
requested), and the program-ordered resource events the call performed. -/
structure MapResult where
  status : Int
  fileHandle : Bool
  sectionHandle : Bool
  sizeOut : Option Nat
  events : List Act
deriving Repr, DecidableEq

/-- Shallow embedding of `OpenAndMapFile` (filesup.c lines 228–344).
`wantSize` models a non-NULL `FileSize` out-pointer.  The event list
records, in program order, the successful acquisitions and the `NtClose`
calls of each exit path: query failure closes the file handle; section
failure closes the file handle; map failure closes the section handle and
then the file handle.  `FileInfo.EndOfFile.LowPart` is the low 32 bits of
the 64-bit byte count. -/
def OpenAndMapFile (env : MapEnv) (wantSize : Bool) : MapResult :=
  -- *FileHandle = NULL; *SectionHandle = NULL;
  if ¬ NT_SUCCESS env.openStatus then
    ⟨env.openStatus, false, false, none, []⟩
  else
    if wantSize ∧ ¬ NT_SUCCESS env.queryStatus then
      -- NtClose(*FileHandle); *FileHandle = NULL;
      ⟨env.queryStatus, false, false, none,
        [.acqFile FILE_SHARE_READ, .relFile]⟩
    else
      let sizeOut := if wantSize then some (env.endOfFile % 2 ^ 32) else none
      if ¬ NT_SUCCESS env.sectionStatus then
        -- NtClose(*FileHandle); *FileHandle = NULL;
        ⟨env.sectionStatus, false, false, sizeOut,
          [.acqFile FILE_SHARE_READ, .relFile]⟩
      else if ¬ NT_SUCCESS env.mapStatus then
        -- NtClose(*SectionHandle); NtClose(*FileHandle);
        ⟨env.mapStatus, false, false, sizeOut,
          [.acqFile FILE_SHARE_READ, .acqSection, .relSection, .relFile]⟩
      else
        ⟨STATUS_SUCCESS, true, true, sizeOut,
          [.acqFile FILE_SHARE_READ, .acqSection, .acqView]⟩

/-- Shallow embedding of `UnMapFile` (filesup.c lines 346–370): the
returned BOOLEAN together with the events performed — the view unmap and
the section close are both attempted unconditionally, in that order. -/
def UnMapFile (unmapStatus closeStatus : Int) : Bool × List Act :=
  -- BOOLEAN Success = TRUE;
  let success1 := if ¬ NT_SUCCESS unmapStatus then false else true
  let success2 := if ¬ NT_SUCCESS closeStatus then false else success1
  (success2, [.relView, .relSection])

/-- Modelled from the spec: the ideal concatenation of §4.1's separator
policy — one separator inserted when neither side has one, leading
separators of the addition skipped when both sides have one, plain
concatenation otherwise.  Used to state what a successful `ConcatPaths`
writes and when the result would exceed the capacity. -/
def joinSpec (base add : List Char) : List Char :=
  if add.getD 0 (Char.ofNat 0) ≠ '\\' ∧ 0 < base.length ∧
      base.getD (base.length - 1) (Char.ofNat 0) ≠ '\\' then
    base ++ '\\' :: add
  else if add.getD 0 (Char.ofNat 0) = '\\' ∧ 0 < base.length ∧
      base.getD (base.length - 1) (Char.ofNat 0) = '\\' then
    base ++ add.dropWhile (· = '\\')
  else
    base ++ add

example : NtPathToDiskPartComponents "\\Device\\Harddisk0".toList =
    ⟨true, 0, 0, some []⟩ := by decide

example : NtPathToDiskPartComponents "\\Device\\Harddisk1\\Partition2\\foo".toList =
    ⟨true, 1, 2, some "\\foo".toList⟩ := by decide

example : NtPathToDiskPartComponents "\\Device\\Harddisk3\\Partition".toList =
    ⟨true, 3, 0, some []⟩ := by decide

example : NtPathToDiskPartComponents "\\Device\\Other".toList =
    ⟨false, 0, 0, none⟩ := by decide

example : NtPathToDiskPartComponents "\\Device\\Harddisk".toList =
    ⟨false, 0, 0, none⟩ := by decide

example : NtPathToDiskPartComponents "\\Device\\Harddisk1x".toList =
    ⟨false, 0, 0, none⟩ := by decide

example : NtPathToDiskPartComponents "\\device\\HARDDISK7\\partition9".toList =
    ⟨true, 7, 9, some []⟩ := by decide

example : NtPathToDiskPartComponents "\\Device\\Harddisk1\\Partition2x".toList =
    ⟨true, 1, 0, some "x".toList⟩ := by decide

example : NtPathToDiskPartComponents "\\Device\\Harddisk1\\Foo".toList =
    ⟨true, 1, 0, some "\\Foo".toList⟩ := by decide

example : ConcatPaths "a".toList 260 (some "b".toList) =
    (STATUS_SUCCESS, "a\\b".toList) := by decide

example : ConcatPaths "a\\".toList 260 (some "\\b".toList) =
    (STATUS_SUCCESS, "a\\b".toList) := by decide

example : ConcatPaths "a\\".toList 260 (some "b".toList) =
    (STATUS_SUCCESS, "a\\b".toList) := by decide

example : ConcatPaths "a".toList 260 (some "".toList) =
    (STATUS_SUCCESS, "a\\".toList) := by decide

example : ConcatPaths [] 1 (some "x".toList) = (STATUS_SUCCESS, []) := by decide

example : ConcatPaths "ab".toList 3 (some "c".toList) =
    (STATUS_BUFFER_OVERFLOW, "ab".toList) := by decide

/-- Case-insensitive literal match holds on the literal itself followed by
anything. -/
theorem ciMatch_append (lit rest : List Char) :
    ciMatch lit (lit ++ rest) = true := by
  simp [ciMatch, List.take_left]

/-- Dropping while a predicate holds skips a block that satisfies it
wholesale. -/
theorem dropWhile_append_all {p : Char → Bool} (ds rest : List Char)
    (h : ∀ c ∈ ds, p c = true) :
    (ds ++ rest).dropWhile p = rest.dropWhile p := by
  induction ds with
  | nil => rfl
  | cons d ds ih =>
    simp only [List.cons_append, List.dropWhile_cons, h d (by simp), if_true]
    exact ih (fun c hc => h c (by simp [hc]))

/-- C1 (amended): the parser's boolean success is false exactly in three
structural cases — literal-prefix mismatch, no decimal digit immediately
after the 16-character device literal, or an invalid character (neither
end-of-string nor the path separator) immediately after the disk-number
digit run; every other input parses successfully. -/
theorem ntPathSuccess_iff_structural (s : List Char) :
    (NtPathToDiskPartComponents s).success =
      (ciMatch hdDevLit s && headIsDigit (s.drop 16) && ! afterDiskBad s) := by
  unfold NtPathToDiskPartComponents afterDiskBad
  by_cases h1 : ciMatch hdDevLit s
  · by_cases h2 : headIsDigit (s.drop 16)
    · simp only [h1, h2, not_true, if_false, Bool.true_and]
      cases h3 : wcstoulRest (s.drop 16) with
      | nil => simp [h3]
      | cons c cs =>
        simp only [h3]
        by_cases h4 : c = OBJ_NAME_PATH_SEPARATOR
        · simp only [h4, ne_eq, not_true, if_false]
          repeat first | rfl | split
        · simp [h4]
    · simp [h1, h2]
  · simp [h1]

/-- C1 (counterexample): on `"\Device\Harddisk1x"` the prefix literal
matches and a decimal digit follows it, yet the parser returns failure —
so prefix mismatch and digit absence are not the only failure classes. -/
theorem ntPath_fails_despite_prefix_and_digit :
    ciMatch hdDevLit "\\Device\\Harddisk1x".toList = true ∧
    headIsDigit ("\\Device\\Harddisk1x".toList.drop 16) = true ∧
    (NtPathToDiskPartComponents "\\Device\\Harddisk1x".toList).success = false := by
  decide

/-- C3 (counterexample): on `"\Device\Harddisk3\Partition"` the returned
path component is not the tail `"\Partition"` claimed by the spec: the
literal has already been consumed when the lenient exit is taken. -/
theorem ntPath_bare_partition_rem_not_tail :
    (NtPathToDiskPartComponents "\\Device\\Harddisk3\\Partition".toList).rem ≠
      some "\\Partition".toList := by
  decide

/-- C3 (amended): parsing `"\Device\Harddisk3\Partition"` succeeds
leniently with disk 3 and partition 0, and the remainder is the empty
tail that follows the consumed `"\Partition"` literal. -/
theorem ntPath_bare_partition_lenient :
    NtPathToDiskPartComponents "\\Device\\Harddisk3\\Partition".toList =
      ⟨true, 3, 0, some []⟩ := by
  decide

/-- C6: with a well-formed prefix, disk digits, `"\Partition"` literal and
partition digits followed by a character that is neither end-of-string nor
the separator, parsing succeeds, the partition number is discarded (stays
0), and the remainder is the current tail — the text beginning with the
invalid character after the consumed partition digits. -/
theorem ntPath_invalid_after_part_digits
    (ds ps rest : List Char) (c : Char)
    (hds : ds ≠ []) (hdsAll : ∀ d ∈ ds, d.isDigit = true)
    (hps : ps ≠ []) (hpsAll : ∀ d ∈ ps, d.isDigit = true)
    (hcD : c.isDigit = false) (hcS : c ≠ OBJ_NAME_PATH_SEPARATOR) :
    (NtPathToDiskPartComponents
        (hdDevLit ++ ds ++ partLit ++ ps ++ c :: rest)).success = true ∧
    (NtPathToDiskPartComponents
        (hdDevLit ++ ds ++ partLit ++ ps ++ c :: rest)).part = 0 ∧
    (NtPathToDiskPartComponents
        (hdDevLit ++ ds ++ partLit ++ ps ++ c :: rest)).rem = some (c :: rest) := by
  obtain ⟨d, ds', rfl⟩ := List.exists_cons_of_ne_nil hds
  obtain ⟨p, ps', rfl⟩ := List.exists_cons_of_ne_nil hps
  have hd : d.isDigit = true := hdsAll d (by simp)
  have hp : p.isDigit = true := hpsAll p (by simp)
  have hbs : Char.isDigit '\\' = false := by decide
  have h16 : (hdDevLit ++ ((d :: ds') ++ (partLit ++ ((p :: ps') ++ c :: rest)))).drop 16
      = (d :: ds') ++ (partLit ++ ((p :: ps') ++ c :: rest)) := by
    rw [show (16 : Nat) = hdDevLit.length from rfl, List.drop_left]
  have hw2 : wcstoulRest ((d :: ds') ++ (partLit ++ ((p :: ps') ++ c :: rest)))
      = partLit ++ ((p :: ps') ++ c :: rest) := by
    unfold wcstoulRest
    rw [dropWhile_append_all _ _ hdsAll]
    simp [partLit, List.dropWhile_cons, hbs]
  have h10 : (partLit ++ ((p :: ps') ++ c :: rest)).drop 10
      = (p :: ps') ++ c :: rest := by
    rw [show (10 : Nat) = partLit.length from rfl, List.drop_left]
  have hw4 : wcstoulRest ((p :: ps') ++ c :: rest) = c :: rest := by
    unfold wcstoulRest
    rw [dropWhile_append_all _ _ hpsAll]
    simp [List.dropWhile_cons, hcD]
  have hw2c : wcstoulRest (d :: (ds' ++ (partLit ++ (p :: (ps' ++ c :: rest)))))
      = '\\' :: 'P' :: 'a' :: 'r' :: 't' :: 'i' :: 't' :: 'i' :: 'o' :: 'n' ::
        (p :: (ps' ++ c :: rest)) := hw2
  have hci2 : ciMatch partLit ('\\' :: 'P' :: 'a' :: 'r' :: 't' :: 'i' :: 't' ::
      'i' :: 'o' :: 'n' :: (p :: (ps' ++ c :: rest))) = true := rfl
  have hhd3 : headIsDigit (p :: (ps' ++ c :: rest)) = true := hp
  have hw4c : wcstoulRest (p :: (ps' ++ c :: rest)) = c :: rest := hw4
  have h10c : List.drop 10 ('\\' :: 'P' :: 'a' :: 'r' :: 't' :: 'i' :: 't' ::
      'i' :: 'o' :: 'n' :: (p :: (ps' ++ c :: rest))) = p :: (ps' ++ c :: rest) := rfl
  have h16c : List.drop 16 (hdDevLit ++ (d :: (ds' ++ (partLit ++ (p :: (ps' ++ c :: rest))))))
      = d :: (ds' ++ (partLit ++ (p :: (ps' ++ c :: rest)))) := rfl
  have hmain : ∃ n, NtPathToDiskPartComponents
      (hdDevLit ++ ((d :: ds') ++ (partLit ++ ((p :: ps') ++ c :: rest))))
      = ⟨true, n, 0, some (c :: rest)⟩ := by
    refine ⟨wcstoulVal (d :: (ds' ++ (partLit ++ (p :: (ps' ++ c :: rest))))), ?_⟩
    unfold NtPathToDiskPartComponents
    simp only [ciMatch_append, List.cons_append, List.nil_append, h16c,
      headIsDigit, hd, not_true, Bool.not_true]
    rw [hw2c]
    have hcS2 : c ≠ '\\' := hcS
    simp [OBJ_NAME_PATH_SEPARATOR, hcS2, h10c, hci2, hhd3, hw4c, hp]
  obtain ⟨n, hn⟩ := hmain
  rw [show hdDevLit ++ ((d :: ds') ++ (partLit ++ ((p :: ps') ++ c :: rest)))
      = hdDevLit ++ (d :: ds') ++ partLit ++ (p :: ps') ++ c :: rest by simp] at hn
  rw [hn]
  exact ⟨rfl, rfl, rfl⟩

/-- Witness for `ntPath_invalid_after_part_digits` at the concrete input
`"\Device\Harddisk1\Partition2x"`. -/
theorem ntPath_invalid_after_part_digits_witness :
    (NtPathToDiskPartComponents
        (hdDevLit ++ ['1'] ++ partLit ++ ['2'] ++ 'x' :: [])).success = true ∧
    (NtPathToDiskPartComponents
        (hdDevLit ++ ['1'] ++ partLit ++ ['2'] ++ 'x' :: [])).part = 0 ∧
    (NtPathToDiskPartComponents
        (hdDevLit ++ ['1'] ++ partLit ++ ['2'] ++ 'x' :: [])).rem = some ('x' :: []) :=
  ntPath_invalid_after_part_digits ['1'] ['2'] [] 'x'
    (by decide) (by decide) (by decide) (by decide) (by decide) (by decide)

/-- C2: at every failure exit of `OpenAndMapFile` every resource acquired
in a strictly earlier step has been released before the error status is
returned (no resource held, both out-handles NULLed), and when the open
itself fails — e.g. the file does not exist — the open error is returned
with an empty event list: zero resources were ever allocated. -/
theorem openAndMapFile_rollback (env : MapEnv) (wantSize : Bool)
    (h : NT_SUCCESS (OpenAndMapFile env wantSize).status = false) :
    heldAfter (OpenAndMapFile env wantSize).events = ⟨false, false, false⟩ ∧
    (OpenAndMapFile env wantSize).fileHandle = false ∧
    (OpenAndMapFile env wantSize).sectionHandle = false ∧
    (NT_SUCCESS env.openStatus = false →
      OpenAndMapFile env wantSize = ⟨env.openStatus, false, false, none, []⟩) := by
  cases wantSize with
  | false =>
    by_cases h1 : NT_SUCCESS env.openStatus = true
    · by_cases hs : NT_SUCCESS env.sectionStatus = true
      · by_cases hm : NT_SUCCESS env.mapStatus = true
        · have hst : (OpenAndMapFile env false).status = STATUS_SUCCESS := by
            simp [OpenAndMapFile, h1, hs, hm]
          rw [hst] at h
          exact absurd h (by decide)
        · refine ⟨?_, ?_, ?_, fun hx => absurd hx (by simp [h1])⟩ <;>
            simp [OpenAndMapFile, h1, hs, hm, heldAfter, applyAct]
      · refine ⟨?_, ?_, ?_, fun hx => absurd hx (by simp [h1])⟩ <;>
          simp [OpenAndMapFile, h1, hs, heldAfter, applyAct]
    · refine ⟨?_, ?_, ?_, fun _ => ?_⟩ <;>
        simp [OpenAndMapFile, h1, heldAfter, applyAct]
  | true =>
    by_cases h1 : NT_SUCCESS env.openStatus = true
    · by_cases hq : NT_SUCCESS env.queryStatus = true
      · by_cases hs : NT_SUCCESS env.sectionStatus = true
        · by_cases hm : NT_SUCCESS env.mapStatus = true
          · have hst : (OpenAndMapFile env true).status = STATUS_SUCCESS := by
              simp [OpenAndMapFile, h1, hq, hs, hm]
            rw [hst] at h
            exact absurd h (by decide)
          · refine ⟨?_, ?_, ?_, fun hx => absurd hx (by simp [h1])⟩ <;>
              simp [OpenAndMapFile, h1, hq, hs, hm, heldAfter, applyAct]
        · refine ⟨?_, ?_, ?_, fun hx => absurd hx (by simp [h1])⟩ <;>
            simp [OpenAndMapFile, h1, hq, hs, heldAfter, applyAct]
      · refine ⟨?_, ?_, ?_, fun hx => absurd hx (by simp [h1])⟩ <;>
          simp [OpenAndMapFile, h1, hq, heldAfter, applyAct]
    · refine ⟨?_, ?_, ?_, fun _ => ?_⟩ <;>
        simp [OpenAndMapFile, h1, heldAfter, applyAct]

/-- Witness for `openAndMapFile_rollback`: opening a nonexistent file
(`STATUS_OBJECT_NAME_NOT_FOUND`-style failure) with a size request. -/
theorem openAndMapFile_rollback_witness :
    NT_SUCCESS (OpenAndMapFile ⟨-1073741772, 0, 0, 0, 0⟩ true).status = false ∧
    (heldAfter (OpenAndMapFile ⟨-1073741772, 0, 0, 0, 0⟩ true).events =
        ⟨false, false, false⟩ ∧
      (OpenAndMapFile ⟨-1073741772, 0, 0, 0, 0⟩ true).fileHandle = false ∧
      (OpenAndMapFile ⟨-1073741772, 0, 0, 0, 0⟩ true).sectionHandle = false ∧
      (NT_SUCCESS (-1073741772 : Int) = false →
        OpenAndMapFile ⟨-1073741772, 0, 0, 0, 0⟩ true =
          ⟨-1073741772, false, false, none, []⟩)) :=
  ⟨by decide, openAndMapFile_rollback ⟨-1073741772, 0, 0, 0, 0⟩ true (by decide)⟩

/-- C5 (counterexample): on a fully successful run, `OpenAndMapFile`
opened its file handle with share access `FILE_SHARE_READ` alone, which
does not include `FILE_SHARE_WRITE` — the open is not shared for write
access by other processes. -/
theorem openAndMapFile_share_excludes_write :
    (OpenAndMapFile ⟨0, 0, 0, 0, 0⟩ false).events.head? =
      some (Act.acqFile FILE_SHARE_READ) ∧
    FILE_SHARE_READ &&& FILE_SHARE_WRITE = 0 := by
  decide

/-- C5 (amended): every file-open `OpenAndMapFile` performs uses share
access exactly `FILE_SHARE_READ` — other processes may read the file
concurrently but may not write it. -/
theorem openAndMapFile_share_only_read (env : MapEnv) (wantSize : Bool) :
    ((OpenAndMapFile env wantSize).events.all fun a =>
      match a with
      | Act.acqFile s => s == FILE_SHARE_READ
      | _ => true) = true ∧
    FILE_SHARE_READ &&& FILE_SHARE_WRITE = 0 := by
  refine ⟨?_, by decide⟩
  cases wantSize with
  | false =>
    by_cases h1 : NT_SUCCESS env.openStatus = true <;>
      by_cases hs : NT_SUCCESS env.sectionStatus = true <;>
        by_cases hm : NT_SUCCESS env.mapStatus = true <;>
          simp [OpenAndMapFile, h1, hs, hm]
  | true =>
    by_cases h1 : NT_SUCCESS env.openStatus = true <;>
      by_cases hq : NT_SUCCESS env.queryStatus = true <;>
        by_cases hs : NT_SUCCESS env.sectionStatus = true <;>
          by_cases hm : NT_SUCCESS env.mapStatus = true <;>
            simp [OpenAndMapFile, h1, hq, hs, hm]

/-- C8: when a size was requested and the file's 64-bit byte count does
not fit in 32 bits, `OpenAndMapFile` does not fail on that account: it
stores the low 32 bits as the size output and proceeds to section
creation and view mapping, succeeding outright when those succeed. -/
theorem openAndMapFile_large_file (env : MapEnv)
    (hopen : NT_SUCCESS env.openStatus = true)
    (hquery : NT_SUCCESS env.queryStatus = true)
    (hbig : 2 ^ 32 ≤ env.endOfFile) :
    (OpenAndMapFile env true).sizeOut = some (env.endOfFile % 2 ^ 32) ∧
    (NT_SUCCESS env.sectionStatus = true → NT_SUCCESS env.mapStatus = true →
      OpenAndMapFile env true =
        ⟨STATUS_SUCCESS, true, true, some (env.endOfFile % 2 ^ 32),
          [.acqFile FILE_SHARE_READ, .acqSection, .acqView]⟩) := by
  constructor
  · by_cases hs : NT_SUCCESS env.sectionStatus = true <;>
      by_cases hm : NT_SUCCESS env.mapStatus = true <;>
        simp [OpenAndMapFile, hopen, hquery, hs, hm]
  · intro hs hm
    simp [OpenAndMapFile, hopen, hquery, hs, hm]

/-- Witness for `openAndMapFile_large_file` with a byte count of
`2^32 + 5`: the reported size is the truncated low 32 bits. -/
theorem openAndMapFile_large_file_witness :
    2 ^ 32 ≤ (4294967301 : Nat) ∧
    ((OpenAndMapFile ⟨0, 0, 4294967301, 0, 0⟩ true).sizeOut =
        some (4294967301 % 2 ^ 32) ∧
      (NT_SUCCESS (0 : Int) = true → NT_SUCCESS (0 : Int) = true →
        OpenAndMapFile ⟨0, 0, 4294967301, 0, 0⟩ true =
          ⟨STATUS_SUCCESS, true, true, some (4294967301 % 2 ^ 32),
            [.acqFile FILE_SHARE_READ, .acqSection, .acqView]⟩)) :=
  ⟨by decide, openAndMapFile_large_file ⟨0, 0, 4294967301, 0, 0⟩
    (by decide) (by decide) (by decide)⟩

/-- C9: `UnMapFile` always attempts both the view unmap and the section
close, in that order — the close is attempted even when the unmap failed —
and it returns TRUE exactly when both sub-steps succeeded. -/
theorem unMapFile_both_attempted (u c : Int) :
    (UnMapFile u c).2 = [Act.relView, Act.relSection] ∧
    ((UnMapFile u c).1 = true ↔
      (NT_SUCCESS u = true ∧ NT_SUCCESS c = true)) := by
  refine ⟨rfl, ?_⟩
  by_cases hu : NT_SUCCESS u = true <;> by_cases hc : NT_SUCCESS c = true <;>
    simp [UnMapFile, hu, hc]

/-- Concatenation succeeds and appends fully when the result (with its
terminator) fits within the capacity. -/
theorem RtlCat_ok (dest : List Char) (cap : Nat) (src : List Char)
    (h : dest.length + src.length + 1 ≤ cap) :
    RtlStringCchCatW dest cap src = (STATUS_SUCCESS, dest ++ src) := by
  have h1 : ¬ (cap = 0 ∨ cap < dest.length + 1) := by omega
  simp [RtlStringCchCatW, h1, h]

/-- Concatenation overflows, filling the buffer to capacity − 1, when the
destination is valid but the result would not fit. -/
theorem RtlCat_overflow (dest : List Char) (cap : Nat) (src : List Char)
    (hd : dest.length + 1 ≤ cap) (h : cap < dest.length + src.length + 1) :
    (RtlStringCchCatW dest cap src).1 = STATUS_BUFFER_OVERFLOW ∧
    (RtlStringCchCatW dest cap src).2.length = cap - 1 := by
  have h1 : ¬ (cap = 0 ∨ cap < dest.length + 1) := by omega
  have h2 : ¬ (dest.length + src.length + 1 ≤ cap) := by omega
  refine ⟨by simp [RtlStringCchCatW, h1, h2], ?_⟩
  simp [RtlStringCchCatW, h1, h2, List.length_take]
  omega

/-- C4 (amended): for any base within its declared capacity, `ConcatPaths`
never produces content that would overrun the buffer (final length stays
below the capacity, leaving room for the terminator); when the capacity
exceeds 1, a success writes exactly the policy concatenation, and whenever
that concatenation would exceed the capacity the call returns
`STATUS_BUFFER_OVERFLOW` instead of success.  (With capacity ≤ 1 the
function is a success no-op by design.) -/
theorem concatPaths_bounded (base add : List Char) (cap : Nat)
    (hbase : base.length < cap) :
    (ConcatPaths base cap (some add)).2.length < cap ∧
    (1 < cap → NT_SUCCESS (ConcatPaths base cap (some add)).1 = true →
      (ConcatPaths base cap (some add)).2 = joinSpec base add) ∧
    (1 < cap → cap ≤ (joinSpec base add).length →
      (ConcatPaths base cap (some add)).1 = STATUS_BUFFER_OVERFLOW) := by
  have hnt0 : NT_SUCCESS STATUS_SUCCESS = true := by decide
  have hntO : NT_SUCCESS STATUS_BUFFER_OVERFLOW = false := by decide
  by_cases hcap1 : cap ≤ 1
  · have hr : ConcatPaths base cap (some add) = (STATUS_SUCCESS, base) := by
      simp [ConcatPaths, hcap1]
    rw [hr]
    exact ⟨hbase, fun h1 _ => absurd h1 (by omega), fun h1 _ => absurd h1 (by omega)⟩
  · have hmin : min cap base.length = base.length := by omega
    by_cases hb1 : (add.getD 0 (Char.ofNat 0) ≠ '\\' ∧ 0 < base.length ∧
        base.getD (base.length - 1) (Char.ofNat 0) ≠ '\\')
    · -- insert one separator, then concatenate
      have hJ : joinSpec base add = base ++ '\\' :: add := by
        rw [joinSpec, if_pos hb1]
      by_cases hfit1 : base.length + 2 ≤ cap
      · have e1 : RtlStringCchCatW base cap ['\\'] = (STATUS_SUCCESS, base ++ ['\\']) :=
          RtlCat_ok _ _ _ (by simp; omega)
        have hr : ConcatPaths base cap (some add) =
            RtlStringCchCatW (base ++ ['\\']) cap add := by
          simp only [ConcatPaths]
          rw [if_neg hcap1, hmin, if_pos hb1, e1]
          simp [hnt0]
        by_cases hfit2 : base.length + 1 + add.length + 1 ≤ cap
        · have e2 : RtlStringCchCatW (base ++ ['\\']) cap add =
              (STATUS_SUCCESS, base ++ ['\\'] ++ add) :=
            RtlCat_ok _ _ _ (by simp; omega)
          rw [hr, e2]
          refine ⟨by simp; omega, fun _ _ => by rw [hJ]; simp, fun _ hex => ?_⟩
          exfalso; rw [hJ] at hex; simp at hex; omega
        · have e2o := RtlCat_overflow (base ++ ['\\']) cap add
            (by simp; omega) (by simp; omega)
          rw [hr]
          refine ⟨by have := e2o.2; omega, fun _ hsucc => ?_, fun _ _ => e2o.1⟩
          rw [e2o.1] at hsucc; exact absurd hsucc (by decide)
      · -- no room even for the separator: the first append overflows
        have e1o := RtlCat_overflow base cap ['\\'] (by omega) (by simp; omega)
        rcases hp : RtlStringCchCatW base cap ['\\'] with ⟨st, d⟩
        have hst : st = STATUS_BUFFER_OVERFLOW := by
          have := e1o.1; rw [hp] at this; exact this
        have hdl : d.length = cap - 1 := by
          have := e1o.2; rw [hp] at this; exact this
        have hr : ConcatPaths base cap (some add) = (STATUS_BUFFER_OVERFLOW, d) := by
          simp only [ConcatPaths]
          rw [if_neg hcap1, hmin, if_pos hb1, hp, hst]
          simp [hntO]
        rw [hr]
        refine ⟨by simp [hdl]; omega, fun _ hsucc => ?_, fun _ _ => rfl⟩
        have hsucc2 : NT_SUCCESS STATUS_BUFFER_OVERFLOW = true := hsucc
        exact absurd hsucc2 (by decide)
    · by_cases hb2 : (add.getD 0 (Char.ofNat 0) = '\\' ∧ 0 < base.length ∧
          base.getD (base.length - 1) (Char.ofNat 0) = '\\')
      · -- both sides have the separator: skip the addition's leading ones
        have hJ : joinSpec base add = base ++ add.dropWhile (· = '\\') := by
          rw [joinSpec, if_neg hb1, if_pos hb2]
        have hr : ConcatPaths base cap (some add) =
            RtlStringCchCatW base cap (add.dropWhile (· = '\\')) := by
          simp only [ConcatPaths]
          rw [if_neg hcap1, hmin, if_neg hb1, if_pos hb2]
        by_cases hfit : base.length + (add.dropWhile (· = '\\')).length + 1 ≤ cap
        · have e := RtlCat_ok base cap (add.dropWhile (· = '\\')) hfit
          rw [hr, e]
          refine ⟨by simp; omega, fun _ _ => by rw [hJ], fun _ hex => ?_⟩
          exfalso; rw [hJ] at hex; simp at hex; omega
        · have e := RtlCat_overflow base cap (add.dropWhile (· = '\\'))
            (by omega) (by omega)
          rw [hr]
          refine ⟨by have := e.2; omega, fun _ hsucc => ?_, fun _ _ => e.1⟩
          rw [e.1] at hsucc; exact absurd hsucc (by decide)
      · -- exactly one side has the separator: concatenate as-is
        have hJ : joinSpec base add = base ++ add := by
          rw [joinSpec, if_neg hb1, if_neg hb2]
        have hr : ConcatPaths base cap (some add) =
            RtlStringCchCatW base cap add := by
          simp only [ConcatPaths]
          rw [if_neg hcap1, hmin, if_neg hb1, if_neg hb2]
        by_cases hfit : base.length + add.length + 1 ≤ cap
        · have e := RtlCat_ok base cap add hfit
          rw [hr, e]
          refine ⟨by simp; omega, fun _ _ => by rw [hJ], fun _ hex => ?_⟩
          exfalso; rw [hJ] at hex; simp at hex; omega
        · have e := RtlCat_overflow base cap add (by omega) (by omega)
          rw [hr]
          refine ⟨by have := e.2; omega, fun _ hsucc => ?_, fun _ _ => e.1⟩
          rw [e.1] at hsucc; exact absurd hsucc (by decide)

/-- C4 (counterexample): with capacity 1, empty base and addition `"x"`,
the policy concatenation (one character plus terminator) cannot fit, yet
`ConcatPaths` returns `STATUS_SUCCESS` (a no-op) instead of a
length-exceeded error. -/
theorem concatPaths_small_cap_success_despite_exceeding :
    ConcatPaths [] 1 (some ['x']) = (STATUS_SUCCESS, []) ∧
    1 ≤ (joinSpec [] ['x']).length ∧
    NT_SUCCESS STATUS_SUCCESS = true := by
  decide

/-- Witness for `concatPaths_bounded` at base `"a"`, addition `"b"`,
capacity 260. -/
theorem concatPaths_bounded_witness :
    (ConcatPaths ['a'] 260 (some ['b'])).2.length < 260 ∧
    (1 < 260 → NT_SUCCESS (ConcatPaths ['a'] 260 (some ['b'])).1 = true →
      (ConcatPaths ['a'] 260 (some ['b'])).2 = joinSpec ['a'] ['b']) ∧
    (1 < 260 → 260 ≤ (joinSpec ['a'] ['b']).length →
      (ConcatPaths ['a'] 260 (some ['b'])).1 = STATUS_BUFFER_OVERFLOW) :=
  concatPaths_bounded ['a'] ['b'] 260 (by decide)

/-- C7: given sufficient capacity, `join("a","b")` inserts one separator,
`join("a\\","\\b")` de-duplicates the separators, and `join("a\\","b")`
concatenates as-is, all yielding `"a\\b"`. -/
theorem concatPaths_separator_policy (cap : Nat) (h : 4 ≤ cap) :
    ConcatPaths ['a'] cap (some ['b']) = (STATUS_SUCCESS, ['a', '\\', 'b']) ∧
    ConcatPaths ['a', '\\'] cap (some ['\\', 'b']) =
      (STATUS_SUCCESS, ['a', '\\', 'b']) ∧
    ConcatPaths ['a', '\\'] cap (some ['b']) =
      (STATUS_SUCCESS, ['a', '\\', 'b']) := by
  have hc1 : ¬ cap ≤ 1 := by omega
  have hmin1 : min cap 1 = 1 := by omega
  have hmin2 : min cap 2 = 2 := by omega
  have hnt0 : NT_SUCCESS STATUS_SUCCESS = true := by decide
  have e1 : RtlStringCchCatW ['a'] cap ['\\'] = (STATUS_SUCCESS, ['a', '\\']) :=
    RtlCat_ok _ _ _ (by simp; omega)
  have e2 : RtlStringCchCatW ['a', '\\'] cap ['b'] =
      (STATUS_SUCCESS, ['a', '\\', 'b']) :=
    RtlCat_ok _ _ _ (by simp; omega)
  refine ⟨?_, ?_, ?_⟩
  · have hb1 : (['b'].getD 0 (Char.ofNat 0) ≠ '\\' ∧ 0 < (1 : Nat) ∧
        ['a'].getD (1 - 1) (Char.ofNat 0) ≠ '\\') := by decide
    simp only [ConcatPaths]
    rw [if_neg hc1, show (['a'] : List Char).length = 1 from rfl, hmin1,
      if_pos hb1, e1, e2]
    simp [hnt0]
  · have hb2 : ((['\\', 'b'] : List Char).getD 0 (Char.ofNat 0) = '\\' ∧
        0 < (2 : Nat) ∧ ['a', '\\'].getD (2 - 1) (Char.ofNat 0) = '\\') := by decide
    have hb1 : ¬ ((['\\', 'b'] : List Char).getD 0 (Char.ofNat 0) ≠ '\\' ∧
        0 < (2 : Nat) ∧ ['a', '\\'].getD (2 - 1) (Char.ofNat 0) ≠ '\\') := by decide
    simp only [ConcatPaths]
    rw [if_neg hc1, show (['a', '\\'] : List Char).length = 2 from rfl, hmin2,
      if_neg hb1, if_pos hb2,
      show (['\\', 'b'] : List Char).dropWhile (· = '\\') = ['b'] from rfl, e2]
  · have hb1 : ¬ ((['b'] : List Char).getD 0 (Char.ofNat 0) ≠ '\\' ∧
        0 < (2 : Nat) ∧ ['a', '\\'].getD (2 - 1) (Char.ofNat 0) ≠ '\\') := by decide
    have hb2 : ¬ ((['b'] : List Char).getD 0 (Char.ofNat 0) = '\\' ∧
        0 < (2 : Nat) ∧ ['a', '\\'].getD (2 - 1) (Char.ofNat 0) = '\\') := by decide
    simp only [ConcatPaths]
    rw [if_neg hc1, show (['a', '\\'] : List Char).length = 2 from rfl, hmin2,
      if_neg hb1, if_neg hb2, e2]

/-- Witness for `concatPaths_separator_policy` at capacity 260. -/
theorem concatPaths_separator_policy_witness :
    ConcatPaths ['a'] 260 (some ['b']) = (STATUS_SUCCESS, ['a', '\\', 'b']) ∧
    ConcatPaths ['a', '\\'] 260 (some ['\\', 'b']) =
      (STATUS_SUCCESS, ['a', '\\', 'b']) ∧
    ConcatPaths ['a', '\\'] 260 (some ['b']) =
      (STATUS_SUCCESS, ['a', '\\', 'b']) :=
  concatPaths_separator_policy 260 (by decide)

/-- C10: joining a present-but-empty addition onto a nonempty base whose
last character is not the separator succeeds (given room) but appends one
trailing separator — the base is changed, not left alone. -/
theorem concatPaths_empty_addition (base : List Char) (cap : Nat)
    (hne : 0 < base.length)
    (hlast : base.getD (base.length - 1) (Char.ofNat 0) ≠ '\\')
    (hcap : base.length + 2 ≤ cap) :
    ConcatPaths base cap (some []) = (STATUS_SUCCESS, base ++ ['\\']) ∧
    base ++ ['\\'] ≠ base := by
  have hc1 : ¬ cap ≤ 1 := by omega
  have hmin : min cap base.length = base.length := by omega
  have hnt0 : NT_SUCCESS STATUS_SUCCESS = true := by decide
  have e1 : RtlStringCchCatW base cap ['\\'] = (STATUS_SUCCESS, base ++ ['\\']) :=
    RtlCat_ok _ _ _ (by simp; omega)
  have e2 : RtlStringCchCatW (base ++ ['\\']) cap [] =
      (STATUS_SUCCESS, base ++ ['\\'] ++ []) :=
    RtlCat_ok _ _ _ (by simp; omega)
  have hb1 : (([] : List Char).getD 0 (Char.ofNat 0) ≠ '\\' ∧ 0 < base.length ∧
      base.getD (base.length - 1) (Char.ofNat 0) ≠ '\\') :=
    ⟨by decide, hne, hlast⟩
  constructor
  · simp only [ConcatPaths]
    rw [if_neg hc1, hmin, if_pos hb1, e1, e2]
    simp [hnt0]
  · intro hEq
    have := congrArg List.length hEq
    simp at this

/-- Witness for `concatPaths_empty_addition` at base `"a"`, capacity 4. -/
theorem concatPaths_empty_addition_witness :
    ConcatPaths ['a'] 4 (some []) = (STATUS_SUCCESS, ['a'] ++ ['\\']) ∧
    ['a'] ++ ['\\'] ≠ ['a'] :=
  concatPaths_empty_addition ['a'] 4 (by decide) (by decide) (by decide)
